import Mathlib

/-! # cloudsql-postgres-operator: the generic controller runtime

A shallow embedding of `pkg/controllers/generic.go`.

The controller talks to three collaborators that live outside the file: the
rate limited work queue (`workqueue.RateLimitingInterface`), the reconciler
(`syncHandler`) and the crash/error reporting helpers of `runtime`.  Every
call the controller makes on one of them is recorded, in program order, in a
trace of `Event`s.  What the collaborators answer is an input of the model:

* the results of the successive `Get` calls are a list of pending deliveries
  (an empty list means that `Get` blocks for ever);
* `syncHandler` is a state passing function, so that two calls on the same
  key may answer differently.

Calls on `logger` only write to the log and are not recorded.
-/

namespace Controllers

/-! ## Data model -/

/-- A value of Go type `interface{}` coming off the work queue: either a
string, or a value of any other dynamic type (kept by its `%#v` rendering). -/
inductive Item where
  | str (s : String)
  | other (goSyntax : String)
  deriving DecidableEq, Repr

/-- The error values the controller hands to `runtime.HandleError`.
`unexpectedItem obj` is `fmt.Errorf("expected a string to come off of the work queue but got %#v", obj)`;
`syncFailed key msg` is `fmt.Errorf("error syncing %q: %s", key, err.Error())`;
`keyFailed msg` is the error returned by the key function in `enqueue`. -/
inductive WorkError where
  | unexpectedItem (obj : Item)
  | syncFailed (key : String) (msg : String)
  | keyFailed (msg : String)
  deriving DecidableEq, Repr

/-- One call made by a worker, as seen from outside the controller. -/
inductive Event where
  /-- the call `c.workqueue.Get()` -/
  | get
  /-- the call `c.syncHandler(key)` -/
  | syncHandler (key : String)
  /-- the call `c.workqueue.Forget(obj)` -/
  | forget (obj : Item)
  /-- the call `c.workqueue.AddRateLimited(key)` -/
  | addRateLimited (obj : Item)
  /-- the call `c.workqueue.Done(obj)` -/
  | done (obj : Item)
  /-- the call `c.workqueue.Add(key)` -/
  | add (key : String)
  /-- the call `runtime.HandleError(err)` -/
  | handleError (err : WorkError)
  deriving DecidableEq, Repr

/-- The fields of `genericController` that the worker reads.  `σ` is the
state the reconciler works on (the cluster and the provider). -/
structure genericController (σ : Type) where
  /-- the name of the controller -/
  name : String
  /-- a function that takes a work item and processes it; `none` is a nil error -/
  syncHandler : String → σ → Option String × σ
  /-- the number of workers to use for processing items (a Go `int`) -/
  threadiness : Int

/-- What a worker goroutine sees and does: the reconciler's state, the
answers the queue will give to the next `Get` calls, and the calls made so
far. -/
structure World (σ : Type) where
  handlerState : σ
  pending : List (Item × Bool)
  trace : List Event

/-- Append calls to the trace. -/
def World.emit {σ : Type} (w : World σ) (es : List Event) : World σ :=
  { w with trace := w.trace ++ es }

/-- The result of running a piece of code that may block for ever. -/
inductive Outcome (α : Type) where
  /-- the code returned -/
  | returned (a : α)
  /-- the code is blocked in a call that never returns -/
  | blocked
  /-- the model ran out of fuel -/
  | outOfFuel
  deriving Repr

/-! ## processNextWorkItem -/

/-- The function literal of `processNextWorkItem` (lines 112-143): it
processes `obj` and returns the error, with `c.workqueue.Done(obj)` deferred
to its return. -/
def processItem {σ : Type} (c : genericController σ) (obj : Item) (w : World σ) :
    Option WorkError × World σ :=
  match obj with
  | Item.other g =>
    -- not a string: Forget, report, return nil; then the deferred Done
    (none, w.emit [Event.forget (Item.other g),
                   Event.handleError (WorkError.unexpectedItem (Item.other g)),
                   Event.done (Item.other g)])
  | Item.str key =>
    match c.syncHandler key w.handlerState with
    | (some msg, s) =>
      (some (WorkError.syncFailed key msg),
        { w with handlerState := s }.emit
          [Event.syncHandler key, Event.addRateLimited (Item.str key), Event.done (Item.str key)])
    | (none, s) =>
      (none,
        { w with handlerState := s }.emit
          [Event.syncHandler key, Event.forget (Item.str key), Event.done (Item.str key)])

/-- Reads a single work item off the work queue and attempts to process it
by calling `syncHandler` (`processNextWorkItem`, lines 103-151). -/
def processNextWorkItem {σ : Type} (c : genericController σ) (w : World σ) :
    Outcome (Bool × World σ) :=
  match w.pending with
  | [] => Outcome.blocked
  | (obj, shutdown) :: rest =>
    let w1 := { w with pending := rest }.emit [Event.get]
    if shutdown then
      Outcome.returned (false, w1)
    else
      match processItem c obj w1 with
      | (some err, w2) => Outcome.returned (true, w2.emit [Event.handleError err])
      | (none, w2) => Outcome.returned (true, w2)

/-- The loop of `runWorker`, `for c.processNextWorkItem() {}`, with a bound
on the number of iterations. -/
def runWorkerLoop {σ : Type} (c : genericController σ) : Nat → World σ → Outcome (World σ)
  | 0, _ => Outcome.outOfFuel
  | fuel + 1, w =>
    match processNextWorkItem c w with
    | Outcome.returned (true, w1) => runWorkerLoop c fuel w1
    | Outcome.returned (false, w1) => Outcome.returned w1
    | Outcome.blocked => Outcome.blocked
    | Outcome.outOfFuel => Outcome.outOfFuel

/-- Continually calls `processNextWorkItem` (`runWorker`, lines 97-100).
Every iteration consumes one pending answer of `Get`, so one more iteration
than there are pending answers is always enough. -/
def runWorker {σ : Type} (c : genericController σ) (w : World σ) : Outcome (World σ) :=
  runWorkerLoop c (w.pending.length + 1) w

/-! ## Run -/

/-- One action of the goroutine that executes `Run`. -/
inductive RunEvent where
  /-- the call `cache.WaitForCacheSync(ctx.Done(), c.hasSyncedFuncs...)` -/
  | waitForCacheSync
  /-- the statement `go wait.Until(c.runWorker, time.Second, ctx.Done())` of iteration `i` -/
  | goWorker (i : Int)
  /-- the receive `<-ctx.Done()` completes -/
  | ctxDone
  /-- the deferred call `c.workqueue.ShutDown()` -/
  | shutDown
  /-- the deferred call `runtime.HandleCrash()` -/
  | handleCrash
  deriving DecidableEq, Repr

/-- What `Run` learns from outside: the answer of `cache.WaitForCacheSync`,
and whether the context is ever cancelled. -/
structure RunEnv where
  cacheSyncOk : Bool
  ctxCancelled : Bool

/-- The actions of `Run` in program order, and how it ends: `returned none`
is `return nil`, `returned (some msg)` returns an error, `blocked` means that
`<-ctx.Done()` never completes. -/
structure RunResult where
  trace : List RunEvent
  result : Outcome (Option String)

/-- The loop `for i := 0; i < c.threadiness; i++ { go wait.Until(...) }`
started at `i`, with a bound on the number of iterations. -/
def launchWorkers (threadiness : Int) : Nat → Int → List RunEvent
  | 0, _ => []
  | fuel + 1, i =>
    if i < threadiness then RunEvent.goWorker i :: launchWorkers threadiness fuel (i + 1)
    else []

/-- Starts the controller, blocking until the context is canceled (`Run`,
lines 56-84).  The two deferred calls run at every return, last deferred
first. -/
def Run {σ : Type} (c : genericController σ) (env : RunEnv) : RunResult :=
  let deferred := [RunEvent.shutDown, RunEvent.handleCrash]
  if env.cacheSyncOk then
    let started :=
      RunEvent.waitForCacheSync :: launchWorkers c.threadiness c.threadiness.toNat 0
    if env.ctxCancelled then
      { trace := started ++ RunEvent.ctxDone :: deferred, result := Outcome.returned none }
    else
      { trace := started, result := Outcome.blocked }
  else
    { trace := RunEvent.waitForCacheSync :: deferred,
      result := Outcome.returned (some "failed to wait for informer caches to be synced") }

/-! ## Run and its workers side by side -/

/-- Where a worker goroutine launched by `Run` stands. -/
inductive WorkerPc where
  /-- in `c.workqueue.Get()`, or between two work items -/
  | inGet
  /-- inside `c.syncHandler(key)` -/
  | inSyncHandler (key : String)
  /-- the goroutine has ended -/
  | stopped
  deriving DecidableEq, Repr

/-- The goroutine of `Run` together with the workers it has launched.
`runTodo` is what `Run` still has to do; `Run` has returned when it is empty. -/
structure System where
  cancelled : Bool
  queueShutDown : Bool
  runTodo : List RunEvent
  workers : List WorkerPc
  deriving DecidableEq, Repr

/-- One scheduling decision. -/
inductive Action where
  /-- the context is cancelled from outside -/
  | cancel
  /-- the goroutine of `Run` performs its next action -/
  | run
  /-- worker `i` gets `key` from `Get` and enters `syncHandler` -/
  | deliver (i : Nat) (key : String)
  /-- the `syncHandler` call of worker `i` returns and the item is completed -/
  | syncReturn (i : Nat)
  /-- worker `i`, told by `Get` that the queue is shut down, ends -/
  | stop (i : Nat)
  deriving DecidableEq, Repr

/-- The system before `Run` has done anything. -/
def System.init {σ : Type} (c : genericController σ) (cacheSyncOk : Bool) : System :=
  { cancelled := false, queueShutDown := false,
    runTodo := (Run c { cacheSyncOk := cacheSyncOk, ctxCancelled := true }).trace,
    workers := [] }

/-- Perform one scheduling decision, if it is possible in this state. -/
def System.step (s : System) : Action → Option System
  | Action.cancel => some { s with cancelled := true }
  | Action.run =>
    match s.runTodo with
    | [] => none
    | RunEvent.goWorker _ :: todo =>
      some { s with runTodo := todo, workers := s.workers ++ [WorkerPc.inGet] }
    | RunEvent.ctxDone :: todo =>
      if s.cancelled then some { s with runTodo := todo } else none
    | RunEvent.shutDown :: todo => some { s with runTodo := todo, queueShutDown := true }
    | _ :: todo => some { s with runTodo := todo }
  | Action.deliver i key =>
    if s.workers.get? i = some WorkerPc.inGet then
      some { s with workers := s.workers.set i (WorkerPc.inSyncHandler key) }
    else none
  | Action.syncReturn i =>
    match s.workers.get? i with
    | some (WorkerPc.inSyncHandler _) => some { s with workers := s.workers.set i WorkerPc.inGet }
    | _ => none
  | Action.stop i =>
    if s.queueShutDown ∧ s.workers.get? i = some WorkerPc.inGet then
      some { s with workers := s.workers.set i WorkerPc.stopped }
    else none

/-- Perform a schedule, one decision after the other. -/
def System.exec (s : System) : List Action → Option System
  | [] => some s
  | a :: rest =>
    match s.step a with
    | some s1 => s1.exec rest
    | none => none

/-! ## enqueue -/

/-- A value handed to `enqueue`: an object with metadata, or anything else. -/
inductive Resource where
  | object (ns : String) (name : String) (spec : String)
  | other (goSyntax : String)
  deriving DecidableEq, Repr

/-- Modelled from the spec: `cache.MetaNamespaceKeyFunc`, which `enqueue`
calls, is not among the sources.  The spec says that keying "maps a resource
object to a stable string key (namespace/name)"; a value that is not a
resource object has no key. -/
def MetaNamespaceKeyFunc : Resource → Except String String
  | Resource.object ns name _ => Except.ok (ns ++ "/" ++ name)
  | Resource.other g => Except.error ("object has no meta: " ++ g)

/-- Takes a resource, computes its key with `keyFunc` and puts it as a work
item onto the work queue (`enqueue`, lines 154-164).  The result is the
calls made. -/
def enqueue (keyFunc : Resource → Except String String) (obj : Resource) : List Event :=
  match keyFunc obj with
  | Except.error msg => [Event.handleError (WorkError.keyFailed msg)]
  | Except.ok key => [Event.add key]

/-! ## The rate limiter -/

/-- Modelled from the spec: the rate limiter is built by
`workqueue.DefaultControllerRateLimiter()`, which is not among the sources.
The spec says that `AddRateLimited(key)` re-adds the key "after a backoff delay
computed from a monotonically increasing, per-key failure counter (exponential,
capped)"; the constants are left open. -/
structure RateLimiter where
  baseDelay : Nat
  maxDelay : Nat

/-- Modelled from the spec: the delay after `failures` earlier failures,
exponential in the counter and capped. -/
def RateLimiter.delay (r : RateLimiter) (failures : Nat) : Nat :=
  min (r.baseDelay * 2 ^ failures) r.maxDelay

/-- The limiter's view of the queue: the failure counter of every item and
the delays scheduled so far, oldest first. -/
structure LimiterState where
  failures : Item → Nat
  delays : List (Item × Nat)

/-- Modelled from the spec: what one call does to the limiter.
`AddRateLimited` schedules a delay from the item's counter and increments it,
`Forget` "resets the failure counter", every other call leaves it alone. -/
def RateLimiter.observe (r : RateLimiter) (q : LimiterState) : Event → LimiterState
  | Event.addRateLimited k =>
    { failures := Function.update q.failures k (q.failures k + 1),
      delays := q.delays ++ [(k, r.delay (q.failures k))] }
  | Event.forget k => { q with failures := Function.update q.failures k 0 }
  | _ => q

/-- The limiter after a trace of calls. -/
def RateLimiter.observeAll (r : RateLimiter) (q : LimiterState) (t : List Event) : LimiterState :=
  t.foldl r.observe q

/-- Whether each of the next `n` calls of `syncHandler` on `key`, started in
state `s`, returns an error. -/
def syncFailures {σ : Type} (c : genericController σ) (key : String) : Nat → σ → List Bool
  | 0, _ => []
  | n + 1, s =>
    (c.syncHandler key s).1.isSome :: syncFailures c key n (c.syncHandler key s).2

/-! ## Concrete inputs -/

/-- A controller with one worker whose reconciler always succeeds. -/
def ctrlOk : genericController Unit :=
  { name := "postgresqlinstance", syncHandler := fun _ s => (none, s), threadiness := 1 }

/-- A controller with two workers whose reconciler always fails. -/
def ctrlFail : genericController Unit :=
  { name := "postgresqlinstance", syncHandler := fun _ s => (some "boom", s), threadiness := 2 }

/-- A controller whose reconciler fails until its counter reaches zero. -/
def ctrlCount : genericController Nat :=
  { name := "postgresqlinstance",
    syncHandler := fun _ n => if n = 0 then (none, 5) else (some "not yet", n - 1),
    threadiness := 1 }

/-! ## Reading a worker's trace -/

/-- The key of a `syncHandler` call, nothing for any other call. -/
def Event.syncKey : Event → Option String
  | Event.syncHandler key => some key
  | _ => none

/-- The key carried by a work item, nothing when it is not a string. -/
def Item.key : Item → Option String
  | Item.str key => some key
  | Item.other _ => none

/-- Whether a call is a call on the work queue. -/
def Event.isQueueOp : Event → Bool
  | Event.get => true
  | Event.forget _ => true
  | Event.addRateLimited _ => true
  | Event.done _ => true
  | Event.add _ => true
  | Event.syncHandler _ => false
  | Event.handleError _ => false

/-! ## The work queue shared by the workers -/

/-- Modelled from the spec: the work queue is client-go's and not among the
sources.  The spec (4.1) describes it by the keys waiting to be delivered and
the keys "currently being processed". -/
structure QueueState where
  queued : List String
  processing : List String
  deriving DecidableEq, Repr

/-- Modelled from the spec: `Add(key)` "inserts key if absent; no-op if
already queued or currently being processed". -/
def QueueState.Add (q : QueueState) (key : String) : QueueState :=
  if key ∈ q.queued ∨ key ∈ q.processing then q
  else { q with queued := q.queued ++ [key] }

/-- Modelled from the spec: `Get()` hands out a waiting key, which from then
on is being processed; the spec gives "no ordering guarantee between different
keys", so any waiting key may be the one.  There is no answer for a key that
is not waiting. -/
def QueueState.Get (q : QueueState) (key : String) : Option QueueState :=
  if key ∈ q.queued then
    some { queued := q.queued.erase key, processing := key :: q.processing }
  else none

/-- Modelled from the spec: `Done(key)` "marks processing of key complete,
allowing it to be re-added". -/
def QueueState.Done (q : QueueState) (key : String) : QueueState :=
  { q with processing := q.processing.erase key }

/-- The queue together with the worker goroutines. -/
structure Pool where
  queue : QueueState
  workers : List WorkerPc
  deriving DecidableEq, Repr

/-- One scheduling decision of the pool. -/
inductive PoolAction where
  /-- somebody calls `Add(key)`: `enqueue`, or the re-add that an earlier
  `AddRateLimited(key)` scheduled -/
  | add (key : String)
  /-- the `Get` of worker `i` answers `key`, and the worker enters `syncHandler` -/
  | deliver (i : Nat) (key : String)
  /-- the `syncHandler` call of worker `i` returns; the worker calls `Forget`
  or `AddRateLimited`, then the deferred `Done` on the item it was given -/
  | finish (i : Nat)
  deriving DecidableEq, Repr

/-- A pool of `n` workers on an empty queue. -/
def Pool.init (n : Nat) : Pool :=
  { queue := { queued := [], processing := [] }, workers := List.replicate n WorkerPc.inGet }

/-- Perform one scheduling decision, if it is possible in this state. -/
def Pool.step (p : Pool) : PoolAction → Option Pool
  | PoolAction.add key => some { p with queue := p.queue.Add key }
  | PoolAction.deliver i key =>
    if p.workers.get? i = some WorkerPc.inGet then
      match p.queue.Get key with
      | some q => some { queue := q, workers := p.workers.set i (WorkerPc.inSyncHandler key) }
      | none => none
    else none
  | PoolAction.finish i =>
    match p.workers.get? i with
    | some (WorkerPc.inSyncHandler key) =>
      some { queue := p.queue.Done key, workers := p.workers.set i WorkerPc.inGet }
    | _ => none

/-- Perform a schedule, one decision after the other. -/
def Pool.exec (p : Pool) : List PoolAction → Option Pool
  | [] => some p
  | a :: rest =>
    match p.step a with
    | some p1 => p1.exec rest
    | none => none

/-- What the proof of mutual exclusion maintains: a key is in `syncHandler`
at one worker at most, every such key is being processed, and no waiting key
is being processed or waits twice. -/
def Pool.Inv (p : Pool) : Prop :=
  (∀ i j key, p.workers.get? i = some (WorkerPc.inSyncHandler key) →
      p.workers.get? j = some (WorkerPc.inSyncHandler key) → i = j) ∧
    (∀ i key, p.workers.get? i = some (WorkerPc.inSyncHandler key) →
      key ∈ p.queue.processing) ∧
    (∀ key, key ∈ p.queue.queued → key ∉ p.queue.processing) ∧
    p.queue.queued.Nodup

/-! ## The Ready condition -/

/-- The state of a status condition. -/
inductive ConditionStatus where
  | statusTrue
  | statusFalse
  | statusUnknown
  deriving DecidableEq, Repr

/-- Modelled from the spec: the provider side of an instance (3,
ProviderInstance), reduced to its settings and the operation in progress, if
any, with the settings that operation is putting in place. -/
structure ProviderInstance (S : Type) where
  settings : S
  operation : Option S

/-- Modelled from the spec: a managed instance (3, ManagedInstanceResource),
reduced to the desired settings, the provider side and the state of the
`Ready` condition. -/
structure ManagedInstance (S : Type) where
  spec : S
  provider : ProviderInstance S
  ready : ConditionStatus

/-- Modelled from the spec: the reconciler is not among the sources (only
its end-to-end test is).  This is step 4 of 4.3: "diff desired spec against
provider state; if any field differs ... issue an update call ..., then mark
Ready=False ... and re-queue until the provider confirms the operation
finished, at which point re-check fully and set Ready=True".  The boolean
tells whether the key is re-queued. -/
def reconcileSettings {S : Type} [DecidableEq S] (m : ManagedInstance S) :
    Bool × ManagedInstance S :=
  match m.provider.operation with
  | some _ => (true, m)
  | none =>
    if m.spec = m.provider.settings then
      (false, { m with ready := ConditionStatus.statusTrue })
    else
      (true, { m with provider := { m.provider with operation := some m.spec },
                      ready := ConditionStatus.statusFalse })

/-- What can happen to a managed instance. -/
inductive InstanceEvent (S : Type) where
  /-- the user edits the desired settings -/
  | specEdited (s : S)
  /-- the provider finishes the operation in progress -/
  | operationFinished
  /-- the reconciler runs on the instance -/
  | reconciled

/-- Modelled from the spec: the effect of one event on a managed instance. -/
def ManagedInstance.step {S : Type} [DecidableEq S] (m : ManagedInstance S) :
    InstanceEvent S → ManagedInstance S
  | InstanceEvent.specEdited s => { m with spec := s }
  | InstanceEvent.operationFinished =>
    match m.provider.operation with
    | some target => { m with provider := { settings := target, operation := none } }
    | none => m
  | InstanceEvent.reconciled => (reconcileSettings m).2

/-- The events of a history, oldest first. -/
def ManagedInstance.run {S : Type} [DecidableEq S] (m : ManagedInstance S)
    (es : List (InstanceEvent S)) : ManagedInstance S :=
  es.foldl ManagedInstance.step m

/-- No operation is in progress while `Ready` is not `False`. -/
def ManagedInstance.Settled {S : Type} (m : ManagedInstance S) : Prop :=
  m.provider.operation ≠ none → m.ready = ConditionStatus.statusFalse

end Controllers

/-! # The process configuration

A shallow embedding of `pkg/configuration/configuration.go`. -/

namespace configuration

/-- The values the file takes from elsewhere: four constants of
`pkg/constants`, which is not among the sources, and the name of logrus's
info level, `log.InfoLevel.String()`.  They are parameters of the model. -/
structure Constants where
  DefaultWebhookBindAddress : String
  DefaultCloudSQLProxyImage : String
  DefaultCloudsqlPostgresOperatorNamespace : String
  DefaultControllersResyncPeriodSeconds : Int
  InfoLevelString : String

/-- The default value of "gcp.admin_service_account_key_path". -/
def defaultAdminServiceAccountKeyPath : String := "/secret/admin-key.json"

/-- The default value of "gcp.client_service_account_key_path". -/
def defaultClientServiceAccountKeyPath : String := "/secret/client-key.json"

/-- Admission-related configuration options. -/
structure Admission where
  BindAddress : String
  CloudSQLProxyImage : String
  deriving DecidableEq, Repr

/-- Cluster-related configuration options. -/
structure Cluster where
  Kubeconfig : String
  Namespace : String
  deriving DecidableEq, Repr

/-- Controller-related configuration options; the period is a Go `int32`. -/
structure Controllers where
  ResyncPeriodSeconds : Int
  deriving DecidableEq, Repr

/-- Logging-related configuration options. -/
structure Logging where
  Level : String
  deriving DecidableEq, Repr

/-- Project-related configuration options. -/
structure GCP where
  AdminServiceAccountKeyPath : String
  ClientServiceAccountKeyPath : String
  ProjectID : String
  deriving DecidableEq, Repr

/-- The root configuration object. -/
structure Configuration where
  Admission : Admission
  Cluster : Cluster
  Controllers : Controllers
  GCP : GCP
  Logging : Logging
  deriving DecidableEq, Repr

/-- Sets default values where necessary (`Admission.setDefaults`, lines 44-51). -/
def Admission.setDefaults (k : Constants) (a : Admission) : Admission :=
  let a1 := if a.BindAddress = "" then { a with BindAddress := k.DefaultWebhookBindAddress } else a
  if a1.CloudSQLProxyImage = "" then
    { a1 with CloudSQLProxyImage := k.DefaultCloudSQLProxyImage }
  else a1

/-- Sets default values where necessary (`Cluster.setDefaults`, lines 62-66). -/
def Cluster.setDefaults (k : Constants) (c : Cluster) : Cluster :=
  if c.Namespace = "" then
    { c with Namespace := k.DefaultCloudsqlPostgresOperatorNamespace }
  else c

/-- Sets default values where necessary (`Controllers.setDefaults`, lines 98-102). -/
def Controllers.setDefaults (k : Constants) (c : Controllers) : Controllers :=
  if c.ResyncPeriodSeconds = 0 then
    { c with ResyncPeriodSeconds := k.DefaultControllersResyncPeriodSeconds }
  else c

/-- Sets default values where necessary (`Logging.setDefaults`, lines 111-115). -/
def Logging.setDefaults (k : Constants) (l : Logging) : Logging :=
  if l.Level = "" then { l with Level := k.InfoLevelString } else l

/-- Sets default values where necessary (`GCP.setDefaults`, lines 128-135). -/
def GCP.setDefaults (g : GCP) : GCP :=
  let g1 :=
    if g.AdminServiceAccountKeyPath = "" then
      { g with AdminServiceAccountKeyPath := defaultAdminServiceAccountKeyPath }
    else g
  if g1.ClientServiceAccountKeyPath = "" then
    { g1 with ClientServiceAccountKeyPath := defaultClientServiceAccountKeyPath }
  else g1

/-- Sets default values where necessary (`Configuration.setDefaults`, lines 83-89). -/
def Configuration.setDefaults (k : Constants) (c : Configuration) : Configuration :=
  let c1 := { c with Admission := c.Admission.setDefaults k }
  let c2 := { c1 with Cluster := c1.Cluster.setDefaults k }
  let c3 := { c2 with Controllers := c2.Controllers.setDefaults k }
  let c4 := { c3 with GCP := c3.GCP.setDefaults }
  { c4 with Logging := c4.Logging.setDefaults k }

/-- Why the process was aborted by `log.Fatalf`. -/
inductive Fatal where
  /-- "the path to the configuration file must not be empty" -/
  | emptyPath
  /-- "failed to read the configuration file: %v", from `ioutil.ReadFile` -/
  | readFailed (err : String)
  /-- "failed to read the configuration file: %v", from `toml.Unmarshal` -/
  | parseFailed (err : String)
  deriving DecidableEq, Repr

/-- Attempts to parse the specified configuration file, exiting the
application if it cannot be parsed (`MustNewConfigurationFromFile`, lines
138-152).  `readFile` is `ioutil.ReadFile` on the file system at hand and
`unmarshal` is `toml.Unmarshal` into a zero `Configuration`; `Except.error`
is the process aborted by `log.Fatalf`. -/
def MustNewConfigurationFromFile (k : Constants) (readFile : String → Except String String)
    (unmarshal : String → Except String Configuration) (path : String) :
    Except Fatal Configuration :=
  if path = "" then Except.error Fatal.emptyPath
  else
    match readFile path with
    | Except.error err => Except.error (Fatal.readFailed err)
    | Except.ok b =>
      match unmarshal b with
      | Except.error err => Except.error (Fatal.parseFailed err)
      | Except.ok r => Except.ok (r.setDefaults k)

/-! ## Concrete inputs -/

/-- Some values for the constants. -/
def sampleConstants : Constants :=
  { DefaultWebhookBindAddress := "0.0.0.0:443",
    DefaultCloudSQLProxyImage := "gcr.io/cloudsql-docker/gce-proxy:1.14",
    DefaultCloudsqlPostgresOperatorNamespace := "cloudsql-postgres-operator",
    DefaultControllersResyncPeriodSeconds := 300,
    InfoLevelString := "info" }

/-- A file system with one file. -/
def sampleReadFile (path : String) : Except String String :=
  if path = "/etc/config.toml" then Except.ok "[gcp]" else Except.error "no such file"

/-- A parser that accepts one document, which sets the project only. -/
def sampleUnmarshal (b : String) : Except String Configuration :=
  if b = "[gcp]" then
    Except.ok { Admission := ⟨"", ""⟩, Cluster := ⟨"", ""⟩, Controllers := ⟨0⟩,
                GCP := ⟨"", "", "my-project"⟩, Logging := ⟨""⟩ }
  else Except.error "bad document"

end configuration

namespace Controllers

/-! ## Unfolding lemmas for the worker -/

theorem processNextWorkItem_ok {σ : Type} (c : genericController σ) (s s1 : σ) (key : String)
    (rest : List (Item × Bool)) (t : List Event) (h : c.syncHandler key s = (none, s1)) :
    processNextWorkItem c ⟨s, (Item.str key, false) :: rest, t⟩ =
      Outcome.returned (true, ⟨s1, rest,
        t ++ [Event.get, Event.syncHandler key, Event.forget (Item.str key),
              Event.done (Item.str key)]⟩) := by
  simp [processNextWorkItem, processItem, World.emit, h]

theorem processNextWorkItem_err {σ : Type} (c : genericController σ) (s s1 : σ) (key msg : String)
    (rest : List (Item × Bool)) (t : List Event) (h : c.syncHandler key s = (some msg, s1)) :
    processNextWorkItem c ⟨s, (Item.str key, false) :: rest, t⟩ =
      Outcome.returned (true, ⟨s1, rest,
        t ++ [Event.get, Event.syncHandler key, Event.addRateLimited (Item.str key),
              Event.done (Item.str key),
              Event.handleError (WorkError.syncFailed key msg)]⟩) := by
  simp [processNextWorkItem, processItem, World.emit, h]

theorem processNextWorkItem_other {σ : Type} (c : genericController σ) (s : σ) (g : String)
    (rest : List (Item × Bool)) (t : List Event) :
    processNextWorkItem c ⟨s, (Item.other g, false) :: rest, t⟩ =
      Outcome.returned (true, ⟨s, rest,
        t ++ [Event.get, Event.forget (Item.other g),
              Event.handleError (WorkError.unexpectedItem (Item.other g)),
              Event.done (Item.other g)]⟩) := by
  simp [processNextWorkItem, processItem, World.emit]

theorem processNextWorkItem_shutdown {σ : Type} (c : genericController σ) (s : σ) (obj : Item)
    (rest : List (Item × Bool)) (t : List Event) :
    processNextWorkItem c ⟨s, (obj, true) :: rest, t⟩ =
      Outcome.returned (false, ⟨s, rest, t ++ [Event.get]⟩) := by
  simp [processNextWorkItem, World.emit]

/-! ## The work item protocol -/

/-- C1: when the dequeued item is a string key and `syncHandler` returns no
error, the worker calls `Get`, `syncHandler`, `Forget` on the item and then
`Done` on the item, in that order and nothing else: `AddRateLimited` is not
called. -/
theorem processNextWorkItem_success {σ : Type} (c : genericController σ) (w : World σ)
    (key : String) (rest : List (Item × Bool)) (s1 : σ)
    (hget : w.pending = (Item.str key, false) :: rest)
    (hsync : c.syncHandler key w.handlerState = (none, s1)) :
    processNextWorkItem c w =
        Outcome.returned (true, ⟨s1, rest,
          w.trace ++ [Event.get, Event.syncHandler key, Event.forget (Item.str key),
                      Event.done (Item.str key)]⟩) ∧
      ∀ o, Event.addRateLimited o ∉
        [Event.get, Event.syncHandler key, Event.forget (Item.str key),
         Event.done (Item.str key)] := by
  obtain ⟨s, p, t⟩ := w
  simp only at hget hsync
  subst hget
  exact ⟨processNextWorkItem_ok c s s1 key rest t hsync, by simp⟩

theorem processNextWorkItem_success_witness :
    processNextWorkItem ctrlOk ⟨(), [(Item.str "default/db", false)], []⟩ =
      Outcome.returned (true, ⟨(), [],
        [Event.get, Event.syncHandler "default/db", Event.forget (Item.str "default/db"),
         Event.done (Item.str "default/db")]⟩) :=
  (processNextWorkItem_success ctrlOk ⟨(), [(Item.str "default/db", false)], []⟩
    "default/db" [] () rfl rfl).1

/-- C2: when the dequeued item is a string key and `syncHandler` returns an
error, the worker calls `AddRateLimited` once with the key, then `Done`, then
reports the error with `HandleError`; `Forget` is not called and
`processNextWorkItem` returns true. -/
theorem processNextWorkItem_failure {σ : Type} (c : genericController σ) (w : World σ)
    (key msg : String) (rest : List (Item × Bool)) (s1 : σ)
    (hget : w.pending = (Item.str key, false) :: rest)
    (hsync : c.syncHandler key w.handlerState = (some msg, s1)) :
    processNextWorkItem c w =
        Outcome.returned (true, ⟨s1, rest,
          w.trace ++ [Event.get, Event.syncHandler key, Event.addRateLimited (Item.str key),
                      Event.done (Item.str key),
                      Event.handleError (WorkError.syncFailed key msg)]⟩) ∧
      ∀ o, Event.forget o ∉
        [Event.get, Event.syncHandler key, Event.addRateLimited (Item.str key),
         Event.done (Item.str key), Event.handleError (WorkError.syncFailed key msg)] := by
  obtain ⟨s, p, t⟩ := w
  simp only at hget hsync
  subst hget
  exact ⟨processNextWorkItem_err c s s1 key msg rest t hsync, by simp⟩

theorem processNextWorkItem_failure_witness :
    processNextWorkItem ctrlFail ⟨(), [(Item.str "default/db", false)], []⟩ =
      Outcome.returned (true, ⟨(), [],
        [Event.get, Event.syncHandler "default/db", Event.addRateLimited (Item.str "default/db"),
         Event.done (Item.str "default/db"),
         Event.handleError (WorkError.syncFailed "default/db" "boom")]⟩) :=
  (processNextWorkItem_failure ctrlFail ⟨(), [(Item.str "default/db", false)], []⟩
    "default/db" "boom" [] () rfl rfl).1

/-- C3: when the dequeued item is not a string, the worker calls `Forget`
on the item, reports the error and calls `Done` on the item; `syncHandler`
is not invoked (the reconciler's state is untouched), `AddRateLimited` is
not called, and `processNextWorkItem` returns true. -/
theorem processNextWorkItem_not_a_string {σ : Type} (c : genericController σ) (w : World σ)
    (g : String) (rest : List (Item × Bool))
    (hget : w.pending = (Item.other g, false) :: rest) :
    processNextWorkItem c w =
        Outcome.returned (true, ⟨w.handlerState, rest,
          w.trace ++ [Event.get, Event.forget (Item.other g),
                      Event.handleError (WorkError.unexpectedItem (Item.other g)),
                      Event.done (Item.other g)]⟩) ∧
      (∀ k, Event.syncHandler k ∉
        [Event.get, Event.forget (Item.other g),
         Event.handleError (WorkError.unexpectedItem (Item.other g)),
         Event.done (Item.other g)]) ∧
      ∀ o, Event.addRateLimited o ∉
        [Event.get, Event.forget (Item.other g),
         Event.handleError (WorkError.unexpectedItem (Item.other g)),
         Event.done (Item.other g)] := by
  obtain ⟨s, p, t⟩ := w
  simp only at hget
  subst hget
  exact ⟨processNextWorkItem_other c s g rest t, by simp, by simp⟩

theorem processNextWorkItem_not_a_string_witness :
    processNextWorkItem ctrlFail ⟨(), [(Item.other "42", false)], []⟩ =
      Outcome.returned (true, ⟨(), [],
        [Event.get, Event.forget (Item.other "42"),
         Event.handleError (WorkError.unexpectedItem (Item.other "42")),
         Event.done (Item.other "42")]⟩) :=
  (processNextWorkItem_not_a_string ctrlFail ⟨(), [(Item.other "42", false)], []⟩
    "42" [] rfl).1

/-- C4: whenever `Get` answers, `processNextWorkItem` returns, and it returns
false exactly when `Get` reported the shutdown; in that case the only call
made is `Get` itself, the reconciler's state is untouched, and `runWorker`
returns. -/
theorem processNextWorkItem_false_iff_shutdown {σ : Type} (c : genericController σ)
    (w : World σ) (obj : Item) (shutdown : Bool) (rest : List (Item × Bool))
    (hget : w.pending = (obj, shutdown) :: rest) :
    ∃ b w1, processNextWorkItem c w = Outcome.returned (b, w1) ∧
      (b = false ↔ shutdown = true) ∧
      (shutdown = true →
        w1 = ⟨w.handlerState, rest, w.trace ++ [Event.get]⟩ ∧
        runWorker c w = Outcome.returned w1) := by
  obtain ⟨s, p, t⟩ := w
  simp only at hget
  subst hget
  cases shutdown with
  | true =>
    refine ⟨false, ⟨s, rest, t ++ [Event.get]⟩, processNextWorkItem_shutdown c s obj rest t,
      by simp, fun _ => ⟨rfl, ?_⟩⟩
    simp [runWorker, runWorkerLoop, processNextWorkItem_shutdown]
  | false =>
    cases obj with
    | other g =>
      exact ⟨true, _, processNextWorkItem_other c s g rest t, by simp, by simp⟩
    | str key =>
      rcases hs : c.syncHandler key s with ⟨_ | msg, s1⟩
      · exact ⟨true, _, processNextWorkItem_ok c s s1 key rest t hs, by simp, by simp⟩
      · exact ⟨true, _, processNextWorkItem_err c s s1 key msg rest t hs, by simp, by simp⟩

theorem processNextWorkItem_false_iff_shutdown_witness :
    ∃ b w1, processNextWorkItem ctrlOk ⟨(), [(Item.str "default/db", true)], []⟩ =
        Outcome.returned (b, w1) ∧
      (b = false ↔ true = true) ∧
      (true = true →
        w1 = ⟨(), [], [] ++ [Event.get]⟩ ∧
        runWorker ctrlOk ⟨(), [(Item.str "default/db", true)], []⟩ = Outcome.returned w1) :=
  processNextWorkItem_false_iff_shutdown ctrlOk ⟨(), [(Item.str "default/db", true)], []⟩
    (Item.str "default/db") true [] rfl

/-! ## Run: start and shutdown -/

theorem launchWorkers_eq (t : Int) : ∀ (fuel : Nat) (i : Int), (t - i).toNat = fuel →
    launchWorkers t fuel i = (List.range fuel).map (fun (k : Nat) => RunEvent.goWorker (i + (k : Int)))
  | 0, _, _ => rfl
  | fuel + 1, i, h => by
    have hi : i < t := by omega
    have h1 : (t - (i + 1)).toNat = fuel := by omega
    rw [launchWorkers, if_pos hi, launchWorkers_eq t fuel (i + 1) h1, List.range_succ_eq_map]
    simp only [List.map_cons, List.map_map, Nat.cast_zero, add_zero]
    congr 1
    apply List.map_congr_left
    intro k _
    simp only [Function.comp, Nat.cast_succ]
    congr 1
    ring

theorem launchWorkers_threadiness (t : Int) :
    launchWorkers t t.toNat 0 = (List.range t.toNat).map (fun (k : Nat) => RunEvent.goWorker (k : Int)) := by
  rw [launchWorkers_eq t t.toNat 0 (by simp)]
  simp

theorem shutDown_not_mem_launchWorkers (t : Int) (fuel : Nat) (i : Int) :
    RunEvent.shutDown ∉ launchWorkers t fuel i := by
  induction fuel generalizing i with
  | zero => simp [launchWorkers]
  | succ n ih =>
    rw [launchWorkers]
    split
    · simp [ih]
    · simp

theorem ctxDone_not_mem_launchWorkers (t : Int) (fuel : Nat) (i : Int) :
    RunEvent.ctxDone ∉ launchWorkers t fuel i := by
  induction fuel generalizing i with
  | zero => simp [launchWorkers]
  | succ n ih =>
    rw [launchWorkers]
    split
    · simp [ih]
    · simp

theorem exec_no_workers : ∀ (acts : List Action) (s s1 : System),
    (∀ i, RunEvent.goWorker i ∉ s.runTodo) → s.workers = [] → s.exec acts = some s1 →
    s1.workers = []
  | [], s, s1, _, hw, h => by
    simp only [System.exec, Option.some.injEq] at h
    subst h
    exact hw
  | a :: rest, s, s1, hgo, hw, h => by
    obtain ⟨cn, qs, todo, ws⟩ := s
    simp only at hgo hw
    subst hw
    rw [System.exec] at h
    cases a with
    | cancel => exact exec_no_workers rest _ s1 hgo rfl h
    | run =>
      cases todo with
      | nil => simp [System.step] at h
      | cons e todo =>
        have hgo1 : ∀ i, RunEvent.goWorker i ∉ todo := fun i hi =>
          hgo i (List.mem_cons_of_mem _ hi)
        cases e with
        | goWorker i => exact absurd (List.mem_cons_self _ _) (hgo i)
        | ctxDone =>
          cases cn with
          | false => simp [System.step] at h
          | true => exact exec_no_workers rest _ s1 hgo1 rfl h
        | waitForCacheSync => exact exec_no_workers rest _ s1 hgo1 rfl h
        | shutDown => exact exec_no_workers rest _ s1 hgo1 rfl h
        | handleCrash => exact exec_no_workers rest _ s1 hgo1 rfl h
    | deliver i key => simp [System.step] at h
    | syncReturn i => simp [System.step] at h
    | stop i => simp [System.step] at h

/-- C5: if waiting for the caches fails, `Run` returns an error and launches
no worker; in every schedule of the controller no worker ever exists, so that
nothing is dequeued and `syncHandler` is never entered. -/
theorem Run_cacheSync_failure {σ : Type} (c : genericController σ) (env : RunEnv)
    (hsync : env.cacheSyncOk = false) :
    (Run c env).result =
        Outcome.returned (some "failed to wait for informer caches to be synced") ∧
      (∀ i, RunEvent.goWorker i ∉ (Run c env).trace) ∧
      (∀ acts s, (System.init c false).exec acts = some s → s.workers = []) ∧
      ∀ acts i key, (System.init c false).exec (acts ++ [Action.deliver i key]) = none := by
  have hno : ∀ acts s, (System.init c false).exec acts = some s → s.workers = [] := by
    intro acts s h
    refine exec_no_workers acts _ s ?_ rfl h
    intro i
    simp [System.init, Run]
  have hexec : ∀ (acts : List Action) (a : Action) (s : System),
      s.exec (acts ++ [a]) = (s.exec acts).bind (fun s1 => s1.step a) := by
    intro acts a
    induction acts with
    | nil =>
      intro s
      simp only [List.nil_append, System.exec, Option.some_bind]
      cases s.step a <;> rfl
    | cons b rest ih =>
      intro s
      simp only [List.cons_append, System.exec]
      cases s.step b with
      | none => rfl
      | some s1 => exact ih s1
  refine ⟨by simp [Run, hsync], by simp [Run, hsync], hno, ?_⟩
  intro acts i key
  rw [hexec]
  cases h : (System.init c false).exec acts with
  | none => rfl
  | some s1 =>
    have := hno acts s1 h
    simp [System.step, this]

theorem Run_cacheSync_failure_witness :
    (Run ctrlFail ⟨false, true⟩).result =
      Outcome.returned (some "failed to wait for informer caches to be synced") :=
  (Run_cacheSync_failure ctrlFail ⟨false, true⟩ rfl).1

/-- C6: when the caches synchronize, `Run` launches one worker for each
`i` with `0 ≤ i < threadiness`, that is exactly `threadiness` workers and none
when `threadiness` is zero or negative; then it blocks for as long as the
context is not cancelled, and once it is cancelled it runs the deferred calls
and returns nil. -/
theorem Run_launches_threadiness {σ : Type} (c : genericController σ) (env : RunEnv)
    (hsync : env.cacheSyncOk = true) :
    (∃ launched tail, (Run c env).trace = RunEvent.waitForCacheSync :: launched ++ tail ∧
        launched = (List.range c.threadiness.toNat).map (fun (k : Nat) => RunEvent.goWorker (k : Int)) ∧
        launched.length = c.threadiness.toNat ∧
        (c.threadiness ≤ 0 → launched = []) ∧
        (∀ i, RunEvent.goWorker i ∉ tail) ∧
        (env.ctxCancelled = false → tail = []) ∧
        (env.ctxCancelled = true →
          tail = [RunEvent.ctxDone, RunEvent.shutDown, RunEvent.handleCrash])) ∧
      (env.ctxCancelled = false → (Run c env).result = Outcome.blocked) ∧
      (env.ctxCancelled = true → (Run c env).result = Outcome.returned none) := by
  obtain ⟨ok, cn⟩ := env
  simp only at hsync
  subst hsync
  have hneg : c.threadiness ≤ 0 →
      (List.range c.threadiness.toNat).map (fun (k : Nat) => RunEvent.goWorker (k : Int)) = [] := by
    intro h
    have : c.threadiness.toNat = 0 := by omega
    simp [this]
  cases cn with
  | false =>
    refine ⟨⟨_, [], ?_, rfl, by simp, hneg, by simp, by simp, by simp⟩, by simp [Run], by simp⟩
    simp [Run, launchWorkers_threadiness]
  | true =>
    refine ⟨⟨_, [RunEvent.ctxDone, RunEvent.shutDown, RunEvent.handleCrash], ?_, rfl, by simp,
      hneg, by simp, by simp, by simp⟩, by simp, by simp [Run]⟩
    simp [Run, launchWorkers_threadiness]

theorem Run_launches_threadiness_witness :
    (Run ctrlFail ⟨true, true⟩).result = Outcome.returned none :=
  (Run_launches_threadiness ctrlFail ⟨true, true⟩ rfl).2.2 rfl

/-- C7: on every return path of `Run` the deferred `ShutDown` is called
exactly once; it is followed only by the deferred `HandleCrash`, so every
worker launch precedes it. -/
theorem Run_shutDown_once {σ : Type} (c : genericController σ) (env : RunEnv)
    (e : Option String) (hret : (Run c env).result = Outcome.returned e) :
    (Run c env).trace.count RunEvent.shutDown = 1 ∧
      ∃ before, (Run c env).trace = before ++ [RunEvent.shutDown, RunEvent.handleCrash] ∧
        RunEvent.shutDown ∉ before := by
  have key : ∃ before, (Run c env).trace = before ++ [RunEvent.shutDown, RunEvent.handleCrash] ∧
      RunEvent.shutDown ∉ before := by
    obtain ⟨ok, cn⟩ := env
    cases ok with
    | false => exact ⟨[RunEvent.waitForCacheSync], by simp [Run], by simp⟩
    | true =>
      cases cn with
      | false => simp [Run] at hret
      | true =>
        refine ⟨RunEvent.waitForCacheSync ::
          launchWorkers c.threadiness c.threadiness.toNat 0 ++ [RunEvent.ctxDone], by simp [Run], ?_⟩
        simp [shutDown_not_mem_launchWorkers]
  refine ⟨?_, key⟩
  obtain ⟨before, hb, hn⟩ := key
  rw [hb, List.count_append, List.count_eq_zero_of_not_mem hn]
  decide

theorem Run_shutDown_once_witness :
    (Run ctrlFail ⟨true, true⟩).trace.count RunEvent.shutDown = 1 :=
  (Run_shutDown_once ctrlFail ⟨true, true⟩ none rfl).1

/-- C8, as stated, fails: with one worker, the worker takes the key
`default/db` and enters `syncHandler`, the context is cancelled, and `Run`
performs its last three actions and returns while the worker is still inside
`syncHandler`. -/
theorem Run_returns_while_worker_busy :
    (System.init ctrlOk true).exec
        [Action.run, Action.run, Action.deliver 0 "default/db", Action.cancel,
         Action.run, Action.run, Action.run] =
      some { cancelled := true, queueShutDown := true, runTodo := [],
             workers := [WorkerPc.inSyncHandler "default/db"] } := by
  decide

/-- C8, amended: once the context is cancelled, `Run` performs all its
remaining actions and returns without a single step of a worker, whatever the
workers are doing, and it leaves the workers that exist as they are. -/
theorem Run_returns_without_waiting (s : System) (hcancel : s.cancelled = true) :
    ∃ s1, s.exec (List.replicate s.runTodo.length Action.run) = some s1 ∧
      s1.runTodo = [] ∧ s.workers <+: s1.workers := by
  obtain ⟨cn, qs, todo, ws⟩ := s
  simp only at hcancel
  subst hcancel
  induction todo generalizing qs ws with
  | nil => exact ⟨_, rfl, rfl, List.prefix_refl _⟩
  | cons e todo ih =>
    cases e with
    | goWorker i =>
      obtain ⟨s1, h1, h2, h3⟩ := ih qs (ws ++ [WorkerPc.inGet])
      exact ⟨s1, by simpa [System.exec, System.step, List.replicate_succ] using h1, h2,
        (List.prefix_append ws _).trans h3⟩
    | shutDown =>
      obtain ⟨s1, h1, h2, h3⟩ := ih true ws
      exact ⟨s1, by simpa [System.exec, System.step, List.replicate_succ] using h1, h2, h3⟩
    | waitForCacheSync =>
      obtain ⟨s1, h1, h2, h3⟩ := ih qs ws
      exact ⟨s1, by simpa [System.exec, System.step, List.replicate_succ] using h1, h2, h3⟩
    | ctxDone =>
      obtain ⟨s1, h1, h2, h3⟩ := ih qs ws
      exact ⟨s1, by simpa [System.exec, System.step, List.replicate_succ] using h1, h2, h3⟩
    | handleCrash =>
      obtain ⟨s1, h1, h2, h3⟩ := ih qs ws
      exact ⟨s1, by simpa [System.exec, System.step, List.replicate_succ] using h1, h2, h3⟩

theorem Run_returns_without_waiting_witness :
    ∃ s1, System.exec ⟨true, false,
          [RunEvent.ctxDone, RunEvent.shutDown, RunEvent.handleCrash],
          [WorkerPc.inSyncHandler "default/db"]⟩ (List.replicate 3 Action.run) = some s1 ∧
      s1.runTodo = [] ∧ [WorkerPc.inSyncHandler "default/db"] <+: s1.workers :=
  Run_returns_without_waiting ⟨true, false,
    [RunEvent.ctxDone, RunEvent.shutDown, RunEvent.handleCrash],
    [WorkerPc.inSyncHandler "default/db"]⟩ rfl

/-! ## enqueue -/

/-- C9: whenever the key function succeeds on an object, `enqueue` makes one
call, `Add` of the key it returned; with the key function of the spec, the
item added for an object with namespace `ns` and name `n` is the string
`ns/n`, and two objects with the same namespace and name add the same item. -/
theorem enqueue_adds_key (ns name spec spec1 : String) :
    (∀ (keyFunc : Resource → Except String String) (obj : Resource) (key : String),
        keyFunc obj = Except.ok key → enqueue keyFunc obj = [Event.add key]) ∧
      enqueue MetaNamespaceKeyFunc (Resource.object ns name spec) =
        [Event.add (ns ++ "/" ++ name)] ∧
      enqueue MetaNamespaceKeyFunc (Resource.object ns name spec1) =
        enqueue MetaNamespaceKeyFunc (Resource.object ns name spec) := by
  refine ⟨?_, rfl, rfl⟩
  intro keyFunc obj key h
  simp [enqueue, h]

theorem enqueue_adds_key_witness :
    enqueue MetaNamespaceKeyFunc (Resource.object "default" "db" "tier: a") =
      [Event.add "default/db"] :=
  ((enqueue_adds_key "default" "db" "tier: a" "tier: b").1 MetaNamespaceKeyFunc
    (Resource.object "default" "db" "tier: a") "default/db" rfl)

/-! ## Backoff -/

theorem RateLimiter.delay_le_max (r : RateLimiter) (n : Nat) : r.delay n ≤ r.maxDelay :=
  Nat.min_le_right _ _

theorem RateLimiter.delay_mono (r : RateLimiter) {m n : Nat} (h : m ≤ n) :
    r.delay m ≤ r.delay n := by
  unfold RateLimiter.delay
  have h2 : r.baseDelay * 2 ^ m ≤ r.baseDelay * 2 ^ n :=
    Nat.mul_le_mul_left _ (Nat.pow_le_pow_right (by decide) h)
  omega

theorem RateLimiter.delay_zero (r : RateLimiter) (h : r.baseDelay ≤ r.maxDelay) :
    r.delay 0 = r.baseDelay := by
  simp [RateLimiter.delay, h]

theorem RateLimiter.observeAll_append (r : RateLimiter) (q : LimiterState) (t u : List Event) :
    r.observeAll q (t ++ u) = r.observeAll (r.observeAll q t) u := by
  simp [RateLimiter.observeAll, List.foldl_append]

theorem runWorkerLoop_err {σ : Type} (c : genericController σ) (s s1 : σ) (key msg : String)
    (rest : List (Item × Bool)) (t : List Event) (fuel : Nat)
    (h : c.syncHandler key s = (some msg, s1)) :
    runWorkerLoop c (fuel + 1) ⟨s, (Item.str key, false) :: rest, t⟩ =
      runWorkerLoop c fuel ⟨s1, rest,
        t ++ [Event.get, Event.syncHandler key, Event.addRateLimited (Item.str key),
              Event.done (Item.str key),
              Event.handleError (WorkError.syncFailed key msg)]⟩ := by
  rw [runWorkerLoop, processNextWorkItem_err c s s1 key msg rest t h]

theorem runWorkerLoop_ok {σ : Type} (c : genericController σ) (s s1 : σ) (key : String)
    (rest : List (Item × Bool)) (t : List Event) (fuel : Nat)
    (h : c.syncHandler key s = (none, s1)) :
    runWorkerLoop c (fuel + 1) ⟨s, (Item.str key, false) :: rest, t⟩ =
      runWorkerLoop c fuel ⟨s1, rest,
        t ++ [Event.get, Event.syncHandler key, Event.forget (Item.str key),
              Event.done (Item.str key)]⟩ := by
  rw [runWorkerLoop, processNextWorkItem_ok c s s1 key rest t h]

theorem runWorkerLoop_shutdown {σ : Type} (c : genericController σ) (s : σ) (obj : Item)
    (rest : List (Item × Bool)) (t : List Event) (fuel : Nat) :
    runWorkerLoop c (fuel + 1) ⟨s, (obj, true) :: rest, t⟩ =
      Outcome.returned ⟨s, rest, t ++ [Event.get]⟩ := by
  rw [runWorkerLoop, processNextWorkItem_shutdown c s obj rest t]

theorem RateLimiter.observeAll_err (r : RateLimiter) (q : LimiterState) (key msg : String) :
    (r.observeAll q [Event.get, Event.syncHandler key, Event.addRateLimited (Item.str key),
        Event.done (Item.str key), Event.handleError (WorkError.syncFailed key msg)]).delays =
        q.delays ++ [(Item.str key, r.delay (q.failures (Item.str key)))] ∧
      (r.observeAll q [Event.get, Event.syncHandler key, Event.addRateLimited (Item.str key),
        Event.done (Item.str key), Event.handleError (WorkError.syncFailed key msg)]).failures
          (Item.str key) = q.failures (Item.str key) + 1 := by
  simp [RateLimiter.observeAll, RateLimiter.observe]

theorem RateLimiter.observeAll_ok (r : RateLimiter) (q : LimiterState) (key : String) :
    (r.observeAll q [Event.get, Event.syncHandler key, Event.forget (Item.str key),
        Event.done (Item.str key)]).delays = q.delays ∧
      (r.observeAll q [Event.get, Event.syncHandler key, Event.forget (Item.str key),
        Event.done (Item.str key)]).failures (Item.str key) = 0 := by
  simp [RateLimiter.observeAll, RateLimiter.observe]

theorem RateLimiter.observeAll_get (r : RateLimiter) (q : LimiterState) :
    r.observeAll q [Event.get] = q := rfl

/-- The worker on `n` failures of `key`, one success and one more failure,
followed by the shutdown: it returns, and the limiter has scheduled the delays
of the counters `f, f + 1, ..., f + n - 1` and then the delay of counter 0. -/
theorem backoff_run {σ : Type} (r : RateLimiter) (c : genericController σ) (key : String)
    (last : Item) : ∀ (n : Nat) (s : σ) (t : List Event) (q : LimiterState) (fuel : Nat),
    syncFailures c key (n + 2) s = List.replicate n true ++ [false, true] →
    ∃ w1 ev,
      runWorkerLoop c (fuel + (n + 3))
        ⟨s, List.replicate (n + 2) (Item.str key, false) ++ [(last, true)], t⟩ =
          Outcome.returned w1 ∧
      w1.trace = t ++ ev ∧
      (r.observeAll q ev).delays =
        q.delays ++
          (List.range n).map (fun i => (Item.str key, r.delay (q.failures (Item.str key) + i))) ++
          [(Item.str key, r.delay 0)]
  | 0, s, t, q, fuel, h => by
    rcases h1 : c.syncHandler key s with ⟨o1, s1⟩
    rcases h2 : c.syncHandler key s1 with ⟨o2, s2⟩
    simp only [syncFailures, h1, h2, List.replicate, List.nil_append, List.cons.injEq,
      and_true] at h
    obtain ⟨ho1, ho2⟩ := h
    cases o1 with
    | some m => simp at ho1
    | none =>
      cases o2 with
      | none => simp at ho2
      | some msg =>
        refine ⟨⟨s2, [], t ++ [Event.get, Event.syncHandler key, Event.forget (Item.str key),
              Event.done (Item.str key)] ++
            [Event.get, Event.syncHandler key, Event.addRateLimited (Item.str key),
              Event.done (Item.str key), Event.handleError (WorkError.syncFailed key msg)] ++
            [Event.get]⟩,
          [Event.get, Event.syncHandler key, Event.forget (Item.str key),
            Event.done (Item.str key)] ++
          ([Event.get, Event.syncHandler key, Event.addRateLimited (Item.str key),
            Event.done (Item.str key), Event.handleError (WorkError.syncFailed key msg)] ++
           [Event.get]), ?_, ?_, ?_⟩
        · show runWorkerLoop c (fuel + 2 + 1)
            ⟨s, (Item.str key, false) :: (Item.str key, false) :: [(last, true)], t⟩ = _
          rw [runWorkerLoop_ok c s s1 key _ t (fuel + 2) h1]
          show runWorkerLoop c (fuel + 1 + 1) _ = _
          rw [runWorkerLoop_err c s1 s2 key msg _ _ (fuel + 1) h2]
          rw [runWorkerLoop_shutdown]
        · simp
        · rw [RateLimiter.observeAll_append, RateLimiter.observeAll_append,
            RateLimiter.observeAll_get, (r.observeAll_err _ key msg).1,
            (r.observeAll_ok q key).1, (r.observeAll_ok q key).2]
          simp
  | n + 1, s, t, q, fuel, h => by
    rcases h1 : c.syncHandler key s with ⟨o1, s1⟩
    rw [show n + 1 + 2 = (n + 2) + 1 from rfl, syncFailures, h1, List.replicate_succ,
      List.cons_append, List.cons.injEq] at h
    obtain ⟨ho1, hrest⟩ := h
    cases o1 with
    | none => simp at ho1
    | some msg =>
      obtain ⟨w1, ev, hrun, htrace, hdelays⟩ :=
        backoff_run r c key last n s1
          (t ++ [Event.get, Event.syncHandler key, Event.addRateLimited (Item.str key),
            Event.done (Item.str key), Event.handleError (WorkError.syncFailed key msg)])
          (r.observeAll q [Event.get, Event.syncHandler key, Event.addRateLimited (Item.str key),
            Event.done (Item.str key), Event.handleError (WorkError.syncFailed key msg)])
          fuel hrest
      refine ⟨w1, [Event.get, Event.syncHandler key, Event.addRateLimited (Item.str key),
            Event.done (Item.str key), Event.handleError (WorkError.syncFailed key msg)] ++ ev,
        ?_, ?_, ?_⟩
      · show runWorkerLoop c (fuel + (n + 3) + 1)
          ⟨s, (Item.str key, false) ::
            (List.replicate (n + 2) (Item.str key, false) ++ [(last, true)]), t⟩ = _
        rw [runWorkerLoop_err c s s1 key msg _ t (fuel + (n + 3)) h1]
        exact hrun
      · rw [htrace, List.append_assoc]
      · rw [RateLimiter.observeAll_append, hdelays, (r.observeAll_err q key msg).1,
          (r.observeAll_err q key msg).2, List.range_succ_eq_map]
        simp only [List.map_cons, List.map_map, List.append_assoc, List.cons_append,
          List.nil_append, Nat.add_zero, List.append_cancel_left_eq, List.cons.injEq, true_and,
          List.append_cancel_right_eq]
        apply List.map_congr_left
        intro i _
        simp only [Function.comp, Nat.succ_eq_add_one]
        rw [Nat.add_assoc, Nat.add_comm 1 i]

/-- C10: with the limiter of the spec, when `syncHandler` fails `n` times
in a row on a key, then succeeds, then fails again, the worker processes the
`n + 2` deliveries and returns, and the delays scheduled by its `AddRateLimited`
calls are `n` non-decreasing delays, none above the cap, followed by the base
delay: the success, through `Forget`, has reset the counter. -/
theorem backoff_grows_and_resets {σ : Type} (r : RateLimiter) (c : genericController σ)
    (key : String) (last : Item) (n : Nat) (s : σ) (q : LimiterState)
    (hcap : r.baseDelay ≤ r.maxDelay)
    (hsync : syncFailures c key (n + 2) s = List.replicate n true ++ [false, true]) :
    ∃ (w1 : World σ) (ds : List Nat),
      runWorker c ⟨s, List.replicate (n + 2) (Item.str key, false) ++ [(last, true)], []⟩ =
        Outcome.returned w1 ∧
      (r.observeAll q w1.trace).delays =
        q.delays ++ ds.map (fun d => (Item.str key, d)) ++ [(Item.str key, r.baseDelay)] ∧
      ds.length = n ∧
      ds.Pairwise (fun a b => a ≤ b) ∧
      (∀ d ∈ ds, d ≤ r.maxDelay) ∧
      r.baseDelay ≤ r.maxDelay := by
  obtain ⟨w1, ev, hrun, htrace, hdelays⟩ := backoff_run r c key last n s [] q 1 hsync
  refine ⟨w1, (List.range n).map (fun i => r.delay (q.failures (Item.str key) + i)),
    ?_, ?_, by simp, ?_, ?_, hcap⟩
  · have hlen : (List.replicate (n + 2) (Item.str key, false) ++ [(last, true)]).length + 1 =
        1 + (n + 3) := by
      simp
      omega
    rw [runWorker]
    simp only
    rw [hlen]
    exact hrun
  · rw [htrace, List.nil_append, hdelays, r.delay_zero hcap]
    simp [List.map_map, Function.comp]
  · refine List.Pairwise.map _ ?_ (List.pairwise_lt_range n)
    intro a b hab
    exact r.delay_mono (by omega)
  · intro d hd
    obtain ⟨i, _, rfl⟩ := List.mem_map.1 hd
    exact r.delay_le_max _

theorem backoff_grows_and_resets_witness :
    ∃ (w1 : World Nat) (ds : List Nat),
      runWorker ctrlCount
          ⟨2, List.replicate (2 + 2) (Item.str "default/db", false) ++ [(Item.str "", true)], []⟩ =
        Outcome.returned w1 ∧
      ((RateLimiter.mk 5 1000).observeAll ⟨fun _ => 0, []⟩ w1.trace).delays =
        [] ++ ds.map (fun d => (Item.str "default/db", d)) ++ [(Item.str "default/db", 5)] ∧
      ds.length = 2 ∧
      ds.Pairwise (fun a b => a ≤ b) ∧
      (∀ d ∈ ds, d ≤ 1000) ∧
      5 ≤ 1000 :=
  backoff_grows_and_resets (RateLimiter.mk 5 1000) ctrlCount "default/db" (Item.str "") 2 2
    ⟨fun _ => 0, []⟩ (by decide) (by decide)

/-! ## The worker loop -/

theorem runWorkerLoop_other {σ : Type} (c : genericController σ) (s : σ) (g : String)
    (rest : List (Item × Bool)) (t : List Event) (fuel : Nat) :
    runWorkerLoop c (fuel + 1) ⟨s, (Item.other g, false) :: rest, t⟩ =
      runWorkerLoop c fuel ⟨s, rest,
        t ++ [Event.get, Event.forget (Item.other g),
              Event.handleError (WorkError.unexpectedItem (Item.other g)),
              Event.done (Item.other g)]⟩ := by
  rw [runWorkerLoop, processNextWorkItem_other c s g rest t]

/-- The worker on any deliveries followed by the shutdown: it returns, having
consumed every answer of `Get`, and its `syncHandler` calls are those of the
string keys delivered, in order. -/
theorem runWorkerLoop_items {σ : Type} (c : genericController σ) (last : Item) :
    ∀ (items : List Item) (s : σ) (t : List Event) (fuel : Nat),
    ∃ w1 ev,
      runWorkerLoop c (fuel + (items.length + 1))
        ⟨s, items.map (fun o => (o, false)) ++ [(last, true)], t⟩ = Outcome.returned w1 ∧
      w1.trace = t ++ ev ∧ w1.pending = [] ∧
      ev.filterMap Event.syncKey = items.filterMap Item.key
  | [], s, t, fuel => by
    refine ⟨⟨s, [], t ++ [Event.get]⟩, [Event.get], ?_, rfl, rfl, rfl⟩
    show runWorkerLoop c (fuel + 1) ⟨s, [(last, true)], t⟩ = _
    rw [runWorkerLoop_shutdown]
  | Item.other g :: items, s, t, fuel => by
    obtain ⟨w1, ev, hrun, htrace, hpend, hkeys⟩ :=
      runWorkerLoop_items c last items s
        (t ++ [Event.get, Event.forget (Item.other g),
              Event.handleError (WorkError.unexpectedItem (Item.other g)),
              Event.done (Item.other g)]) fuel
    refine ⟨w1, [Event.get, Event.forget (Item.other g),
              Event.handleError (WorkError.unexpectedItem (Item.other g)),
              Event.done (Item.other g)] ++ ev, ?_, ?_, hpend, ?_⟩
    · show runWorkerLoop c (fuel + (items.length + 1) + 1)
        ⟨s, (Item.other g, false) :: (items.map (fun o => (o, false)) ++ [(last, true)]), t⟩ = _
      rw [runWorkerLoop_other]
      exact hrun
    · rw [htrace, List.append_assoc]
    · simpa [Event.syncKey, Item.key] using hkeys
  | Item.str key :: items, s, t, fuel => by
    rcases h1 : c.syncHandler key s with ⟨_ | msg, s1⟩
    · obtain ⟨w1, ev, hrun, htrace, hpend, hkeys⟩ :=
        runWorkerLoop_items c last items s1
          (t ++ [Event.get, Event.syncHandler key, Event.forget (Item.str key),
                Event.done (Item.str key)]) fuel
      refine ⟨w1, [Event.get, Event.syncHandler key, Event.forget (Item.str key),
                Event.done (Item.str key)] ++ ev, ?_, ?_, hpend, ?_⟩
      · show runWorkerLoop c (fuel + (items.length + 1) + 1)
          ⟨s, (Item.str key, false) :: (items.map (fun o => (o, false)) ++ [(last, true)]), t⟩ = _
        rw [runWorkerLoop_ok c s s1 key _ t _ h1]
        exact hrun
      · rw [htrace, List.append_assoc]
      · simpa [Event.syncKey, Item.key] using hkeys
    · obtain ⟨w1, ev, hrun, htrace, hpend, hkeys⟩ :=
        runWorkerLoop_items c last items s1
          (t ++ [Event.get, Event.syncHandler key, Event.addRateLimited (Item.str key),
                Event.done (Item.str key),
                Event.handleError (WorkError.syncFailed key msg)]) fuel
      refine ⟨w1, [Event.get, Event.syncHandler key, Event.addRateLimited (Item.str key),
                Event.done (Item.str key),
                Event.handleError (WorkError.syncFailed key msg)] ++ ev, ?_, ?_, hpend, ?_⟩
      · show runWorkerLoop c (fuel + (items.length + 1) + 1)
          ⟨s, (Item.str key, false) :: (items.map (fun o => (o, false)) ++ [(last, true)]), t⟩ = _
        rw [runWorkerLoop_err c s s1 key msg _ t _ h1]
        exact hrun
      · rw [htrace, List.append_assoc]
      · simpa [Event.syncKey, Item.key] using hkeys

/-- C15: for every finite sequence of items delivered by the queue and
followed by a shutdown report, `runWorker` returns, having consumed every
delivery, and the `syncHandler` calls it made are exactly the string keys
delivered, once each and in delivery order, whatever errors the reconciler
returns on the way. -/
theorem runWorker_syncs_every_key {σ : Type} (c : genericController σ) (items : List Item)
    (last : Item) (s : σ) (t : List Event) :
    ∃ w1 ev,
      runWorker c ⟨s, items.map (fun o => (o, false)) ++ [(last, true)], t⟩ =
        Outcome.returned w1 ∧
      w1.trace = t ++ ev ∧ w1.pending = [] ∧
      ev.filterMap Event.syncKey = items.filterMap Item.key := by
  obtain ⟨w1, ev, hrun, h⟩ := runWorkerLoop_items c last items s t 1
  refine ⟨w1, ev, ?_, h⟩
  have hlen : (items.map (fun o => (o, false)) ++ [(last, true)]).length + 1 =
      1 + (items.length + 1) := by
    simp
    omega
  rw [runWorker]
  simp only
  rw [hlen]
  exact hrun

/-- C16: whenever `processNextWorkItem` dequeues an item, the calls it makes
are some calls without `Done`, then `Done` on the dequeued item, then calls
among which there is no call on the queue, no `syncHandler` and no `Done`.  So
`Done` is called once, on the dequeued item, as the last call on the queue and
after `syncHandler`, in every branch. -/
theorem processNextWorkItem_done_once {σ : Type} (c : genericController σ) (w : World σ)
    (obj : Item) (rest : List (Item × Bool)) (hget : w.pending = (obj, false) :: rest) :
    ∃ w1 before after,
      processNextWorkItem c w = Outcome.returned (true, w1) ∧
      w1.trace = w.trace ++ before ++ [Event.done obj] ++ after ∧
      (∀ o, Event.done o ∉ before) ∧
      (∀ e ∈ after, e.isQueueOp = false) ∧
      (∀ k, Event.syncHandler k ∉ after) ∧
      (∀ o, Event.done o ∉ after) := by
  obtain ⟨s, p, t⟩ := w
  simp only at hget
  subst hget
  cases obj with
  | other g =>
    exact ⟨_, [Event.get, Event.forget (Item.other g),
        Event.handleError (WorkError.unexpectedItem (Item.other g))], [],
      processNextWorkItem_other c s g rest t, by simp, by simp, by simp, by simp, by simp⟩
  | str key =>
    rcases hs : c.syncHandler key s with ⟨_ | msg, s1⟩
    · exact ⟨_, [Event.get, Event.syncHandler key, Event.forget (Item.str key)], [],
        processNextWorkItem_ok c s s1 key rest t hs, by simp, by simp, by simp, by simp,
        by simp⟩
    · exact ⟨_, [Event.get, Event.syncHandler key, Event.addRateLimited (Item.str key)],
        [Event.handleError (WorkError.syncFailed key msg)],
        processNextWorkItem_err c s s1 key msg rest t hs, by simp, by simp,
        by simp [Event.isQueueOp], by simp, by simp⟩

theorem processNextWorkItem_done_once_witness :
    ∃ (w1 : World Unit) (before after : List Event),
      processNextWorkItem ctrlFail ⟨(), [(Item.str "default/db", false)], []⟩ =
        Outcome.returned (true, w1) ∧
      w1.trace = [] ++ before ++ [Event.done (Item.str "default/db")] ++ after ∧
      (∀ o, Event.done o ∉ before) ∧
      (∀ e ∈ after, e.isQueueOp = false) ∧
      (∀ k, Event.syncHandler k ∉ after) ∧
      (∀ o, Event.done o ∉ after) :=
  processNextWorkItem_done_once ctrlFail ⟨(), [(Item.str "default/db", false)], []⟩
    (Item.str "default/db") [] rfl

end Controllers

namespace configuration

/-! ## Loading and defaulting -/

/-- C12: `MustNewConfigurationFromFile` returns a configuration exactly when
the path is not empty, the file can be read and its contents parse; what it
returns is then the parsed configuration with `setDefaults` applied, and in
every other case the process is aborted. -/
theorem MustNewConfigurationFromFile_returns_iff (k : Constants)
    (readFile : String → Except String String)
    (unmarshal : String → Except String Configuration) (path : String) :
    ((∃ cfg, MustNewConfigurationFromFile k readFile unmarshal path = Except.ok cfg) ↔
        (path ≠ "" ∧ ∃ b r, readFile path = Except.ok b ∧ unmarshal b = Except.ok r)) ∧
      (∀ cfg, MustNewConfigurationFromFile k readFile unmarshal path = Except.ok cfg →
        ∃ b r, readFile path = Except.ok b ∧ unmarshal b = Except.ok r ∧
          cfg = r.setDefaults k) ∧
      (¬ (path ≠ "" ∧ ∃ b r, readFile path = Except.ok b ∧ unmarshal b = Except.ok r) →
        ∃ f, MustNewConfigurationFromFile k readFile unmarshal path = Except.error f) := by
  unfold MustNewConfigurationFromFile
  by_cases hp : path = ""
  · simp [hp]
  · rcases hr : readFile path with err | b
    · simp [hp]
    · rcases hu : unmarshal b with err | r
      · simp [hp, hu]
      · simp [hp, hu]

theorem MustNewConfigurationFromFile_returns_iff_witness :
    ∃ b r, sampleReadFile "/etc/config.toml" = Except.ok b ∧
      sampleUnmarshal b = Except.ok r ∧
      (⟨⟨"0.0.0.0:443", "gcr.io/cloudsql-docker/gce-proxy:1.14"⟩,
        ⟨"", "cloudsql-postgres-operator"⟩, ⟨300⟩,
        ⟨"/secret/admin-key.json", "/secret/client-key.json", "my-project"⟩,
        ⟨"info"⟩⟩ : Configuration) = r.setDefaults sampleConstants :=
  (MustNewConfigurationFromFile_returns_iff sampleConstants sampleReadFile sampleUnmarshal
    "/etc/config.toml").2.1 _ rfl

/-- C13: `Configuration.setDefaults` gives each of the seven defaulted fields
its default when the field holds the zero value (the empty string, 0 for the
resync period) and leaves it as it is otherwise; `Kubeconfig` and `ProjectID`
are never changed. -/
theorem setDefaults_only_where_necessary (k : Constants) (c : Configuration) :
    (c.setDefaults k).Admission.BindAddress =
        (if c.Admission.BindAddress = "" then k.DefaultWebhookBindAddress
         else c.Admission.BindAddress) ∧
      (c.setDefaults k).Admission.CloudSQLProxyImage =
        (if c.Admission.CloudSQLProxyImage = "" then k.DefaultCloudSQLProxyImage
         else c.Admission.CloudSQLProxyImage) ∧
      (c.setDefaults k).Cluster.Namespace =
        (if c.Cluster.Namespace = "" then k.DefaultCloudsqlPostgresOperatorNamespace
         else c.Cluster.Namespace) ∧
      (c.setDefaults k).Controllers.ResyncPeriodSeconds =
        (if c.Controllers.ResyncPeriodSeconds = 0 then k.DefaultControllersResyncPeriodSeconds
         else c.Controllers.ResyncPeriodSeconds) ∧
      (c.setDefaults k).Logging.Level =
        (if c.Logging.Level = "" then k.InfoLevelString else c.Logging.Level) ∧
      (c.setDefaults k).GCP.AdminServiceAccountKeyPath =
        (if c.GCP.AdminServiceAccountKeyPath = "" then defaultAdminServiceAccountKeyPath
         else c.GCP.AdminServiceAccountKeyPath) ∧
      (c.setDefaults k).GCP.ClientServiceAccountKeyPath =
        (if c.GCP.ClientServiceAccountKeyPath = "" then defaultClientServiceAccountKeyPath
         else c.GCP.ClientServiceAccountKeyPath) ∧
      (c.setDefaults k).Cluster.Kubeconfig = c.Cluster.Kubeconfig ∧
      (c.setDefaults k).GCP.ProjectID = c.GCP.ProjectID := by
  obtain ⟨⟨a1, a2⟩, ⟨c1, c2⟩, ⟨p⟩, ⟨g1, g2, g3⟩, ⟨l⟩⟩ := c
  simp only [Configuration.setDefaults, Admission.setDefaults, Cluster.setDefaults,
    Controllers.setDefaults, Logging.setDefaults, GCP.setDefaults]
  refine ⟨?_, ?_, ?_, ?_, ?_, ?_, ?_, ?_, ?_⟩ <;> split_ifs <;> simp_all

end configuration

namespace Controllers

/-! ## Mutual exclusion on a key -/

theorem Pool.Inv_init (n : Nat) : (Pool.init n).Inv := by
  refine ⟨?_, ?_, ?_, ?_⟩
  · intro i j key hi
    simp [Pool.init, List.getElem?_replicate] at hi
  · intro i key hi
    simp [Pool.init, List.getElem?_replicate] at hi
  · intro key hk
    simp [Pool.init] at hk
  · simp [Pool.init]

theorem Pool.Inv_step (p p1 : Pool) (a : PoolAction) (hinv : p.Inv) (hstep : p.step a = some p1) :
    p1.Inv := by
  obtain ⟨⟨queued, processing⟩, ws⟩ := p
  obtain ⟨h1, h2, h3, h4⟩ := hinv
  simp only [List.get?_eq_getElem?] at h1 h2 h3 h4
  cases a with
  | add key =>
    simp only [Pool.step, QueueState.Add, Option.some.injEq] at hstep
    subst hstep
    by_cases hk : key ∈ queued ∨ key ∈ processing
    · simp only [hk, if_true]
      exact ⟨by simpa using h1, by simpa using h2, h3, h4⟩
    · simp only [hk, if_false]
      have hk1 : key ∉ queued := fun h => hk (Or.inl h)
      have hk2 : key ∉ processing := fun h => hk (Or.inr h)
      refine ⟨by simpa using h1, by simpa using h2, ?_, ?_⟩
      · intro x hx
        rcases List.mem_append.1 hx with hx | hx
        · exact h3 x hx
        · have : x = key := by simpa using hx
          subst this
          exact hk2
      · refine List.nodup_append.2 ⟨h4, List.nodup_singleton _, ?_⟩
        intro x hx hx1
        have : x = key := by simpa using hx1
        subst this
        exact hk1 hx
  | deliver i key =>
    simp only [Pool.step, List.get?_eq_getElem?, QueueState.Get] at hstep
    by_cases hw : ws[i]? = some WorkerPc.inGet
    · by_cases hq : key ∈ queued
      · simp only [hw, hq, if_true, Option.some.injEq] at hstep
        subst hstep
        have hnp : key ∉ processing := h3 key hq
        have hfree : ∀ b, ws[b]? ≠ some (WorkerPc.inSyncHandler key) :=
          fun b hb => hnp (h2 b key hb)
        refine ⟨?_, ?_, ?_, h4.erase key⟩
        · intro a b k ha hb
          simp only [List.get?_eq_getElem?, List.getElem?_set] at ha hb
          by_cases hia : i = a
          · by_cases hib : i = b
            · exact hia.symm.trans hib
            · simp only [hia, if_true] at ha
              simp only [hib, if_false] at hb
              split at ha
              · simp only [Option.some.injEq, WorkerPc.inSyncHandler.injEq] at ha
                subst ha
                exact absurd hb (hfree b)
              · exact absurd ha (by simp)
          · simp only [hia, if_false] at ha
            by_cases hib : i = b
            · simp only [hib, if_true] at hb
              split at hb
              · simp only [Option.some.injEq, WorkerPc.inSyncHandler.injEq] at hb
                subst hb
                exact absurd ha (hfree a)
              · exact absurd hb (by simp)
            · simp only [hib, if_false] at hb
              exact h1 a b k ha hb
        · intro a k ha
          simp only [List.get?_eq_getElem?, List.getElem?_set] at ha
          by_cases hia : i = a
          · simp only [hia, if_true] at ha
            split at ha
            · simp only [Option.some.injEq, WorkerPc.inSyncHandler.injEq] at ha
              subst ha
              exact List.mem_cons_self _ _
            · exact absurd ha (by simp)
          · simp only [hia, if_false] at ha
            exact List.mem_cons_of_mem _ (h2 a k ha)
        · intro x hx
          obtain ⟨hne, hxq⟩ := (h4.mem_erase_iff).1 hx
          intro hmem
          rcases List.mem_cons.1 hmem with h | h
          · exact hne h
          · exact h3 x hxq h
      · simp [hw, hq] at hstep
    · simp [hw] at hstep
  | finish i =>
    simp only [Pool.step, List.get?_eq_getElem?] at hstep
    rcases hw : ws[i]? with _ | pc
    · simp [hw] at hstep
    · cases pc with
      | inGet => simp [hw] at hstep
      | stopped => simp [hw] at hstep
      | inSyncHandler key =>
        simp only [hw, Option.some.injEq] at hstep
        subst hstep
        have hset : ∀ a k, (ws.set i WorkerPc.inGet)[a]? = some (WorkerPc.inSyncHandler k) →
            i ≠ a ∧ ws[a]? = some (WorkerPc.inSyncHandler k) := by
          intro a k ha
          simp only [List.getElem?_set] at ha
          by_cases hia : i = a
          · simp only [hia, if_true] at ha
            split at ha
            · exact absurd ha (by simp)
            · exact absurd ha (by simp)
          · simp only [hia, if_false] at ha
            exact ⟨hia, ha⟩
        refine ⟨?_, ?_, ?_, h4⟩
        · intro a b k ha hb
          simp only [List.get?_eq_getElem?] at ha hb
          exact h1 a b k (hset a k ha).2 (hset b k hb).2
        · intro a k ha
          simp only [List.get?_eq_getElem?] at ha
          obtain ⟨hia, ha1⟩ := hset a k ha
          have hne : k ≠ key := by
            intro h
            subst h
            exact hia (h1 i a k hw ha1)
          exact (List.mem_erase_of_ne hne).2 (h2 a k ha1)
        · intro x hx hmem
          exact h3 x hx (List.mem_of_mem_erase hmem)

theorem Pool.Inv_exec : ∀ (acts : List PoolAction) (p p1 : Pool),
    p.Inv → p.exec acts = some p1 → p1.Inv
  | [], p, p1, hinv, h => by
    simp only [Pool.exec, Option.some.injEq] at h
    subst h
    exact hinv
  | a :: rest, p, p1, hinv, h => by
    rw [Pool.exec] at h
    rcases hs : p.step a with _ | p2
    · simp [hs] at h
    · rw [hs] at h
      exact Pool.Inv_exec rest p2 p1 (Pool.Inv_step p p2 a hinv hs) h

/-- C11: with the queue of the spec, in every schedule of any number of
workers and any calls of `Add`, two different workers are never inside
`syncHandler` on the same key. -/
theorem no_two_workers_on_a_key (n : Nat) (acts : List PoolAction) (p : Pool)
    (hexec : (Pool.init n).exec acts = some p) (i j : Nat) (key : String)
    (hi : p.workers.get? i = some (WorkerPc.inSyncHandler key))
    (hj : p.workers.get? j = some (WorkerPc.inSyncHandler key)) :
    i = j :=
  (Pool.Inv_exec acts (Pool.init n) p (Pool.Inv_init n) hexec).1 i j key hi hj

theorem no_two_workers_on_a_key_witness :
    (Pool.init 2).exec
        [PoolAction.add "default/db", PoolAction.add "default/a",
         PoolAction.deliver 0 "default/db", PoolAction.deliver 1 "default/a"] =
        some ⟨⟨[], ["default/a", "default/db"]⟩,
          [WorkerPc.inSyncHandler "default/db", WorkerPc.inSyncHandler "default/a"]⟩ ∧
      (Pool.init 2).exec
        [PoolAction.add "default/db", PoolAction.deliver 0 "default/db",
         PoolAction.add "default/db", PoolAction.deliver 1 "default/db"] = none ∧
      (0 : Nat) = 0 :=
  ⟨by decide, by decide,
    no_two_workers_on_a_key 2
      [PoolAction.add "default/db", PoolAction.add "default/a",
       PoolAction.deliver 0 "default/db", PoolAction.deliver 1 "default/a"]
      ⟨⟨[], ["default/a", "default/db"]⟩,
        [WorkerPc.inSyncHandler "default/db", WorkerPc.inSyncHandler "default/a"]⟩
      (by decide) 0 0 "default/db" rfl rfl⟩

/-! ## The Ready condition -/

theorem ManagedInstance.Settled_step {S : Type} [DecidableEq S] (m : ManagedInstance S)
    (ev : InstanceEvent S) (h : m.Settled) : (m.step ev).Settled := by
  obtain ⟨spec, ⟨settings, op⟩, ready⟩ := m
  cases ev with
  | specEdited s => exact h
  | operationFinished =>
    cases op with
    | none => exact h
    | some target =>
      intro hop
      exact absurd rfl hop
  | reconciled =>
    cases op with
    | some target => exact h
    | none =>
      by_cases hd : spec = settings
      · intro hop
        simp [ManagedInstance.step, reconcileSettings, hd] at hop
      · intro _
        simp [ManagedInstance.step, reconcileSettings, hd]

theorem ManagedInstance.Settled_run {S : Type} [DecidableEq S] :
    ∀ (es : List (InstanceEvent S)) (m : ManagedInstance S), m.Settled → (m.run es).Settled
  | [], _, h => h
  | ev :: es, m, h => by
    have := ManagedInstance.Settled_run es (m.step ev) (m.Settled_step ev h)
    simpa [ManagedInstance.run] using this

/-- C14: with the reconciler of the spec, a reconciliation that finds the
desired settings different from the provider's sets `Ready` to `False`,
whatever it was, starts the update and asks for a retry; `Ready` turns `True`
only in a reconciliation that finds no operation in progress and no
difference; and as long as an operation is in progress `Ready` stays `False`. -/
theorem ready_follows_divergence {S : Type} [DecidableEq S] (m : ManagedInstance S) :
    (m.provider.operation = none → m.spec ≠ m.provider.settings →
        (reconcileSettings m).2.ready = ConditionStatus.statusFalse ∧
        (reconcileSettings m).2.provider.operation = some m.spec ∧
        (reconcileSettings m).1 = true) ∧
      (∀ ev, (m.step ev).ready = ConditionStatus.statusTrue →
        m.ready ≠ ConditionStatus.statusTrue →
        ev = InstanceEvent.reconciled ∧ m.provider.operation = none ∧
          m.spec = m.provider.settings) ∧
      (∀ es, m.Settled → (m.run es).Settled) := by
  refine ⟨?_, ?_, fun es h => ManagedInstance.Settled_run es m h⟩
  · intro hop hd
    simp [reconcileSettings, hop, hd]
  · intro ev htrue hbefore
    obtain ⟨spec, ⟨settings, op⟩, ready⟩ := m
    cases ev with
    | specEdited s => exact absurd htrue hbefore
    | operationFinished =>
      cases op with
      | none => exact absurd htrue hbefore
      | some target => exact absurd htrue hbefore
    | reconciled =>
      cases op with
      | some target => exact absurd htrue hbefore
      | none =>
        by_cases hd : spec = settings
        · exact ⟨rfl, rfl, hd⟩
        · simp [ManagedInstance.step, reconcileSettings, hd] at htrue

theorem ready_follows_divergence_witness :
    (reconcileSettings
        (⟨true, ⟨false, none⟩, ConditionStatus.statusTrue⟩ : ManagedInstance Bool)).2.ready =
      ConditionStatus.statusFalse :=
  ((ready_follows_divergence
      (⟨true, ⟨false, none⟩, ConditionStatus.statusTrue⟩ : ManagedInstance Bool)).1
    rfl (by decide)).1

/-- The scenario of the end-to-end test: public networking is switched on
for a ready instance; `Ready` goes to `False` at the next reconciliation and
comes back to `True` at the first reconciliation after the provider has
finished. -/
theorem ready_true_false_true :
    ((⟨false, ⟨false, none⟩, ConditionStatus.statusTrue⟩ : ManagedInstance Bool).run
        [InstanceEvent.specEdited true, InstanceEvent.reconciled]).ready =
        ConditionStatus.statusFalse ∧
      ((⟨false, ⟨false, none⟩, ConditionStatus.statusTrue⟩ : ManagedInstance Bool).run
        [InstanceEvent.specEdited true, InstanceEvent.reconciled,
         InstanceEvent.reconciled]).ready = ConditionStatus.statusFalse ∧
      ((⟨false, ⟨false, none⟩, ConditionStatus.statusTrue⟩ : ManagedInstance Bool).run
        [InstanceEvent.specEdited true, InstanceEvent.reconciled,
         InstanceEvent.operationFinished, InstanceEvent.reconciled]).ready =
        ConditionStatus.statusTrue := by
  decide

end Controllers
